import Mathlib

/-!
Verification of the `PythonHabitAnalyzer` static analyzer (src/app.py) against its
natural-language specification.

The analyzer walks a Python `ast` syntax tree and emits findings.  This file gives a
shallow embedding of the data model and of every routine the claims touch:

* a Python AST fragment (`Expr`, `Stmt`, `Handler`) covering exactly the node kinds the
  analyzer inspects, each statement carrying its `lineno`;
* `walkStmt`/`walkExprList`/... — the analyzer's `ast.walk` traversal.  `ast.walk`
  yields nodes in breadth-first order; the embedding yields them in preorder.  Both
  orders visit the same set of nodes, and every property proved below is either
  order-insensitive or about programs (a module-level definition followed by
  module-level statements) on which the two orders agree for the one order-sensitive
  consumer, the call counter of `build_context`;
* `build_context` (`PythonHabitAnalyzer._build_context`), the six structural checks,
  the pylint bridge (`_run_pylint_analysis`) with its collaborators modelled as an
  explicit event, `analyze`, and the web route's normalization and sort.

A central source fact used throughout: neither `ast.parse` nor any code in app.py ever
assigns a `parent` attribute to an AST node, so every `getattr(node, 'parent', None)`
in app.py evaluates to `None`.  The embedding records this as `parentChain n = []`.
-/

set_option autoImplicit false
set_option linter.unnecessarySeqFocus false
set_option linter.unusedTactic false

/-- Python constant values, as far as the analyzer distinguishes them
(`node.test.value is True` is the only value inspection performed). -/
inductive PyConst where
  | pTrue | pFalse | pNone
  | pInt (n : Int)
  | pStr (s : String)
deriving DecidableEq

mutual
/-- Python expressions (`ast.expr`) restricted to the node kinds app.py inspects.
`call` carries its `lineno` because `_check_resource_management` reports the line of a
bare `open(...)` call expression. -/
inductive Expr where
  | name (id : String)
  | constant (v : PyConst)
  | attribute (value : Expr) (attr : String)
  | call (lineno : Nat) (func : Expr) (args : List Expr)
  | listLit (elts : List Expr)
  | dictLit
  | setLit (elts : List Expr)

/-- Python statements (`ast.stmt`) restricted to the node kinds app.py inspects.
Function arguments are their names (`arg.arg`); `with` items are the context
expressions (no check inspects the optional `as` names, which are plain `ast.Name`
nodes matching no `isinstance` test in any check). -/
inductive Stmt where
  | functionDef (lineno : Nat) (nm : String) (args : List String) (defaults : List Expr) (body : List Stmt)
  | assign (lineno : Nat) (targets : List Expr) (value : Expr)
  | augAssign (lineno : Nat) (target : Expr) (value : Expr)
  | exprStmt (lineno : Nat) (value : Expr)
  | whileStmt (lineno : Nat) (test : Expr) (body : List Stmt) (orelse : List Stmt)
  | forStmt (lineno : Nat) (target : Expr) (iter : Expr) (body : List Stmt) (orelse : List Stmt)
  | ifStmt (lineno : Nat) (test : Expr) (body : List Stmt) (orelse : List Stmt)
  | tryStmt (lineno : Nat) (body : List Stmt) (handlers : List Handler) (orelse : List Stmt) (finalbody : List Stmt)
  | withStmt (lineno : Nat) (items : List Expr) (body : List Stmt)
  | returnStmt (lineno : Nat)
  | breakStmt (lineno : Nat)
  | continueStmt (lineno : Nat)
  | raiseStmt (lineno : Nat)
  | passStmt (lineno : Nat)

/-- `ast.ExceptHandler`: optional exception type and handler body. -/
inductive Handler where
  | mk (lineno : Nat) (htype : Option Expr) (body : List Stmt)
end

/-- A Python module (`ast.Module`): its list of top-level statements.  The `Module`
node itself matches no `isinstance` test in any check, so the walk starts at the
statements. -/
abbrev PyModule := List Stmt

/-- A node as seen by `ast.walk`: a statement, an expression, or an except handler. -/
inductive Node where
  | stmt (s : Stmt)
  | expr (e : Expr)
  | handler (h : Handler)

mutual
/-- All nodes of an expression subtree, root first (see the header note on order). -/
def walkExpr : Expr → List Node
  | .name i => [.expr (.name i)]
  | .constant v => [.expr (.constant v)]
  | .attribute v a => .expr (.attribute v a) :: walkExpr v
  | .call ln f args => .expr (.call ln f args) :: (walkExpr f ++ walkExprList args)
  | .listLit es => .expr (.listLit es) :: walkExprList es
  | .dictLit => [.expr .dictLit]
  | .setLit es => .expr (.setLit es) :: walkExprList es

def walkExprList : List Expr → List Node
  | [] => []
  | e :: es => walkExpr e ++ walkExprList es

/-- All nodes of a statement subtree, root first, children in `ast` field order. -/
def walkStmt : Stmt → List Node
  | .functionDef ln nm args defs body =>
      .stmt (.functionDef ln nm args defs body) :: (walkExprList defs ++ walkStmtList body)
  | .assign ln ts v => .stmt (.assign ln ts v) :: (walkExprList ts ++ walkExpr v)
  | .augAssign ln t v => .stmt (.augAssign ln t v) :: (walkExpr t ++ walkExpr v)
  | .exprStmt ln v => .stmt (.exprStmt ln v) :: walkExpr v
  | .whileStmt ln t body orelse =>
      .stmt (.whileStmt ln t body orelse) :: (walkExpr t ++ walkStmtList body ++ walkStmtList orelse)
  | .forStmt ln tgt it body orelse =>
      .stmt (.forStmt ln tgt it body orelse) ::
        (walkExpr tgt ++ walkExpr it ++ walkStmtList body ++ walkStmtList orelse)
  | .ifStmt ln t body orelse =>
      .stmt (.ifStmt ln t body orelse) :: (walkExpr t ++ walkStmtList body ++ walkStmtList orelse)
  | .tryStmt ln body hs orelse fin =>
      .stmt (.tryStmt ln body hs orelse fin) ::
        (walkStmtList body ++ walkHandlerList hs ++ walkStmtList orelse ++ walkStmtList fin)
  | .withStmt ln items body => .stmt (.withStmt ln items body) :: (walkExprList items ++ walkStmtList body)
  | .returnStmt ln => [.stmt (.returnStmt ln)]
  | .breakStmt ln => [.stmt (.breakStmt ln)]
  | .continueStmt ln => [.stmt (.continueStmt ln)]
  | .raiseStmt ln => [.stmt (.raiseStmt ln)]
  | .passStmt ln => [.stmt (.passStmt ln)]

def walkStmtList : List Stmt → List Node
  | [] => []
  | s :: ss => walkStmt s ++ walkStmtList ss

def walkHandler : Handler → List Node
  | .mk ln t body =>
      .handler (.mk ln t body) :: ((t.map walkExpr).getD [] ++ walkStmtList body)

def walkHandlerList : List Handler → List Node
  | [] => []
  | h :: hs => walkHandler h ++ walkHandlerList hs
end

/-- `ast.walk(tree)` over a whole module. -/
def walkModule (m : PyModule) : List Node := walkStmtList m

/-- Every `ast` statement of the analyzer's input carries a `lineno`; the
`getattr(stmt, 'lineno', default)` reads in app.py therefore always hit the attribute. -/
def stmtLineno : Stmt → Nat
  | .functionDef ln .. => ln
  | .assign ln .. => ln
  | .augAssign ln .. => ln
  | .exprStmt ln .. => ln
  | .whileStmt ln .. => ln
  | .forStmt ln .. => ln
  | .ifStmt ln .. => ln
  | .tryStmt ln .. => ln
  | .withStmt ln .. => ln
  | .returnStmt ln => ln
  | .breakStmt ln => ln
  | .continueStmt ln => ln
  | .raiseStmt ln => ln
  | .passStmt ln => ln

/-- Neither `ast.parse` nor app.py ever assigns a `parent` attribute to a node, so the
chain of ancestors reachable through `getattr(node, 'parent', None)` is empty for
every node. -/
def parentChain (_n : Node) : List Node := []

def isBreakNode : Node → Bool
  | .stmt (.breakStmt _) => true
  | _ => false

def isReturnNode : Node → Bool
  | .stmt (.returnStmt _) => true
  | _ => false

def isRaiseNode : Node → Bool
  | .stmt (.raiseStmt _) => true
  | _ => false

def isIfNode : Node → Bool
  | .stmt (.ifStmt ..) => true
  | _ => false

/-- `isinstance(child, ast.Call) and isinstance(child.func, ast.Attribute) and
child.func.attr == 'exit'`. -/
def isExitCallNode : Node → Bool
  | .expr (.call _ (.attribute _ a) _) => a == "exit"
  | _ => false

def isExceptHandlerNode : Node → Bool
  | .handler _ => true
  | _ => false

/-- `isinstance(arg, (ast.List, ast.Dict, ast.Set))` on a default value. -/
def isMutableLit : Expr → Bool
  | .listLit _ => true
  | .dictLit => true
  | .setLit _ => true
  | _ => false

-- The five category constants of `PythonHabitAnalyzer`.

def SYNTAX_ERROR : String := "syntax_error"
def RUNTIME_ERROR : String := "runtime_error"
def FATAL_ERROR : String := "fatal_error"
def BAD_HABIT : String := "bad_habit"
def POTENTIAL_ERROR : String := "potential_error"

/-- One feedback entry, mirroring the dicts appended to `self.feedback`.  `category`
and `certainty` are `Option` because the web route tests the presence of these keys;
the analyzer never sets `certainty`. -/
structure Finding where
  line : Nat
  message : String
  is_bad_habit : Bool
  category : Option String
  source : String
  certainty : Option String
deriving DecidableEq

-- Association-list counterparts of the Python dict operations used on
-- `self.variables` / `self.functions` (insertion order preserved, assignment to an
-- existing key updates in place).

def alistGet {α : Type} (l : List (String × α)) (k : String) : Option α :=
  (l.find? (fun p => p.1 == k)).map (fun p => p.2)

def alistInsert {α : Type} : List (String × α) → String → α → List (String × α)
  | [], k, v => [(k, v)]
  | (k1, v1) :: rest, k, v =>
      if k1 == k then (k, v) :: rest else (k1, v1) :: alistInsert rest k v

/-- The per-function record built by `_build_context` (the `'node'` back-reference is
the function statement itself, kept implicit here; no consumer reads it). -/
structure FunctionFacts where
  calls : Nat
  has_return : Bool
  has_break : Bool
  has_mutable_defaults : Bool
  exception_handlers : List Handler

/-- The analysis context: `self.variables`, `self.functions`, `self.control_flow`. -/
structure Ctx where
  vars : List (String × Nat)
  functions : List (String × FunctionFacts)
  control_flow : List Stmt

def emptyCtx : Ctx := ⟨[], [], []⟩

/-- The facts `_build_context` records when it registers a `FunctionDef`: a walk of the
function subtree for returns, breaks and handlers, and a scan of the defaults for
mutable literals. -/
def mkFunctionFacts (ln : Nat) (nm : String) (args : List String) (defs : List Expr)
    (body : List Stmt) : FunctionFacts :=
  let sub := walkStmt (.functionDef ln nm args defs body)
  ⟨0, sub.any isReturnNode, sub.any isBreakNode, defs.any isMutableLit,
    sub.filterMap (fun n => match n with | .handler h => some h | _ => none)⟩

/-- One step of `_build_context`'s `for node in ast.walk(tree)` loop. -/
def contextStep (c : Ctx) (n : Node) : Ctx :=
  match n with
  | .stmt (.assign _ targets _) =>
      let newVars := targets.foldl
        (fun vs t => match t with
          | .name i => alistInsert vs i ((alistGet vs i).getD 0 + 1)
          | _ => vs) c.vars
      { c with vars := newVars }
  | .stmt (.functionDef ln nm args defs body) =>
      { c with functions := alistInsert c.functions nm (mkFunctionFacts ln nm args defs body) }
  | .expr (.call _ (.name i) _) =>
      match alistGet c.functions i with
      | some facts => { c with functions := alistInsert c.functions i { facts with calls := facts.calls + 1 } }
      | none => c
  | .stmt (.forStmt ln tgt it body orelse) =>
      { c with control_flow := c.control_flow ++ [.forStmt ln tgt it body orelse] }
  | .stmt (.whileStmt ln t body orelse) =>
      { c with control_flow := c.control_flow ++ [.whileStmt ln t body orelse] }
  | .stmt (.ifStmt ln t body orelse) =>
      { c with control_flow := c.control_flow ++ [.ifStmt ln t body orelse] }
  | _ => c

/-- `PythonHabitAnalyzer._build_context`. -/
def build_context (m : PyModule) : Ctx := (walkModule m).foldl contextStep emptyCtx

example : (build_context [.assign 1 [.name "x"] (.constant (.pInt 2))]).vars = [("x", 1)] := by
  decide

example :
    (alistGet (build_context [.functionDef 1 "f" ["items"] [.listLit []] [.passStmt 1],
      .exprStmt 2 (.call 2 (.name "f") [])]).functions "f").map (fun fa => fa.calls) = some 1 := by
  decide

-- ---------------------------------------------------------------------------
-- Finding messages (the f-string texts of app.py; `\x7b\x7d` renders the literal
-- braces of "([], {}, or set())", and `\x22` a double quote)
-- ---------------------------------------------------------------------------

def mutMsg (nm : String) : String :=
  "Function \x22" ++ nm ++ "\x22 uses mutable default argument ([], \x7b\x7d, or set()). This will be shared across all function calls, causing unexpected behavior when modified."

def infMsg : String :=
  "Infinite loop detected (while True without break). This will cause your program to hang indefinitely."

def exceptPassMsg : String :=
  "Catching all exceptions with a bare except: pass will silence critical errors, making bugs extremely difficult to diagnose."

def exceptGenericMsg : String :=
  "Catching all exceptions with a bare except or except Exception can mask critical errors. Catch specific exceptions instead."

def resourceMsg : String :=
  "File opened without using a context manager (with statement). This can lead to resource leaks if the file is not properly closed."

def unreachableMsg : String :=
  "Unreachable code detected after return, break, or continue statement. This code will never execute."

def shadowVarMsg (nm : String) : String :=
  "Variable name \x22" ++ nm ++ "\x22 shadows a Python built-in. This will prevent you from using the original built-in function in this scope."

def shadowParamMsg (nm : String) : String :=
  "Function parameter \x22" ++ nm ++ "\x22 shadows a Python built-in. This will prevent you from using the original built-in function inside this function."

-- ---------------------------------------------------------------------------
-- Check 1: `_check_mutable_defaults`
-- ---------------------------------------------------------------------------

/-- The `reassigns_default` scan: for each of the first `len(defaults)` positional
arguments (the source enumerates `node.args.args` and keeps `i < len(node.args.defaults)`),
look for an `ast.Assign` anywhere in the function subtree whose target is that name. -/
def reassignsDefault (fn : Stmt) (args : List String) (defs : List Expr) : Bool :=
  (args.take defs.length).any (fun a =>
    (walkStmt fn).any (fun n =>
      match n with
      | .stmt (.assign _ targets _) =>
          targets.any (fun t => match t with | .name i => i == a | _ => false)
      | _ => false))

/-- The findings `_check_mutable_defaults` appends at one walked node: for a
`FunctionDef`, one finding per mutable default.  The category defaults to
`runtime_error` and is replaced whenever the function is in the context (which holds
for every function of a parsed tree, since `_build_context` walked the same tree). -/
def emitMutableDefaults (c : Ctx) (n : Node) : List Finding :=
  match n with
  | .stmt (.functionDef ln nm args defs body) =>
      defs.foldr (fun d acc =>
        (if isMutableLit d then
          let category :=
            match alistGet c.functions nm with
            | some facts =>
                if facts.calls > 1 || reassignsDefault (.functionDef ln nm args defs body) args defs
                then POTENTIAL_ERROR else BAD_HABIT
            | none => RUNTIME_ERROR
          [⟨ln, mutMsg nm, true, some category, "ast", none⟩]
        else []) ++ acc) []
  | _ => []

/-- `PythonHabitAnalyzer._check_mutable_defaults`. -/
def check_mutable_defaults (tree : PyModule) (c : Ctx) : List Finding :=
  (walkModule tree).foldr (fun n acc => emitMutableDefaults c n ++ acc) []

-- ---------------------------------------------------------------------------
-- Check 2: `_check_infinite_loops`
-- ---------------------------------------------------------------------------

/-- The findings `_check_infinite_loops` appends at one walked node.  The source scans
`ast.walk(node)` and stops at the first `Break` / `Return` / `Raise` / `*.exit(...)`
call, setting one flag; only the disjunction of the four flags is consumed, so the scan
is rendered as `List.any`.  Likewise for the nested-`If` scan. -/
def emitInfiniteLoop (n : Node) : List Finding :=
  match n with
  | .stmt (.whileStmt ln (.constant .pTrue) body orelse) =>
      let sub := walkStmt (.whileStmt ln (.constant .pTrue) body orelse)
      let anyExit := sub.any (fun ch =>
        isBreakNode ch || isReturnNode ch || isRaiseNode ch || isExitCallNode ch)
      if !anyExit then
        let hasComplexCondition := sub.any isIfNode
        [⟨ln, infMsg, true, some (if hasComplexCondition then POTENTIAL_ERROR else FATAL_ERROR),
          "ast", none⟩]
      else []
  | _ => []

/-- `PythonHabitAnalyzer._check_infinite_loops`. -/
def check_infinite_loops (tree : PyModule) : List Finding :=
  (walkModule tree).foldr (fun n acc => emitInfiniteLoop n ++ acc) []

-- ---------------------------------------------------------------------------
-- Check 3: `_check_exception_handling`
-- ---------------------------------------------------------------------------

/-- One pass of the handler-body loop: `ast.Expr` statements whose value is a call to
an attribute named `debug`/`info`/`warning`/`error`/`critical`/`exception`. -/
def hasLoggingIn (body : List Stmt) : Bool :=
  body.any (fun s =>
    match s with
    | .exprStmt _ (.call _ (.attribute _ a) _) =>
        ["debug", "info", "warning", "error", "critical", "exception"].contains a
    | _ => false)

/-- `ast.Expr` statements whose value is a call to the name `print`. -/
def hasPrintIn (body : List Stmt) : Bool :=
  body.any (fun s =>
    match s with
    | .exprStmt _ (.call _ (.name i) _) => i == "print"
    | _ => false)

/-- `ast.Raise` statements directly in the handler body. -/
def hasReraiseIn (body : List Stmt) : Bool :=
  body.any (fun s => match s with | .raiseStmt _ => true | _ => false)

/-- The findings `_check_exception_handling` appends at one walked node.  The single
source loop sets the three independent flags `has_logging` / `has_print` /
`has_reraise`; they are computed here by three scans of the same body.  In the
`is_just_pass` branch the source reads `getattr(node, 'parent', None)` to look for an
enclosing `try/finally`; the parent chain is empty (see `parentChain`), so the
`bad_habit` downgrade there is unreachable. -/
def emitExceptionHandling (n : Node) : List Finding :=
  match n with
  | .handler (.mk ln htype body) =>
      let isBare :=
        match htype with
        | none => true
        | some (.name i) => i == "Exception"
        | some _ => false
      if isBare then
        let is_just_pass := match body with | [.passStmt _] => true | _ => false
        if is_just_pass then
          let category :=
            match (parentChain n).head? with
            | some (.stmt (.tryStmt _ _ _ _ (_ :: _))) => BAD_HABIT
            | _ => RUNTIME_ERROR
          [⟨ln, exceptPassMsg, true, some category, "ast", none⟩]
        else
          let category :=
            if hasLoggingIn body || hasPrintIn body || hasReraiseIn body
            then BAD_HABIT else POTENTIAL_ERROR
          [⟨ln, exceptGenericMsg, true, some category, "ast", none⟩]
      else []
  | _ => []

/-- `PythonHabitAnalyzer._check_exception_handling`. -/
def check_exception_handling (tree : PyModule) : List Finding :=
  (walkModule tree).foldr (fun n acc => emitExceptionHandling n ++ acc) []

-- ---------------------------------------------------------------------------
-- Check 4: `_check_resource_management`
-- ---------------------------------------------------------------------------

def isWithNode : Node → Bool
  | .stmt (.withStmt ..) => true
  | _ => false

def isFunctionDefNode : Node → Bool
  | .stmt (.functionDef ..) => true
  | _ => false

/-- `isinstance(child, ast.Try) and child.finalbody`. -/
def isTryWithFinalbody : Node → Bool
  | .stmt (.tryStmt _ _ _ _ (_ :: _)) => true
  | _ => false

/-- The finding `_check_resource_management` appends when the walk reaches a call node
`open(...)`.  `is_in_with` walks the parent chain looking for an `ast.With`, and the
closed-file-variable escape first requires `hasattr(node, 'parent')`; both see the
empty `parentChain`, so neither ever suppresses the finding.  The category search for
an enclosing `FunctionDef` walks the same empty chain, so the `else` arm
(`potential_error`) is always taken. -/
def emitResourceFinding (fileVars : List (String × Bool)) (n : Node) : List Finding :=
  match n with
  | .expr (.call ln (.name i) _args) =>
      if i == "open" then
        let is_in_with := (parentChain n).any isWithNode
        let assignedAndClosed :=
          match (parentChain n).head? with
          | none => false
          | some (.stmt (.assign _ [.name v] _)) => (alistGet fileVars v).getD false
          | some _ => false
        if !is_in_with && !assignedAndClosed then
          let parentFunc := (parentChain n).find? isFunctionDefNode
          let category :=
            match parentFunc with
            | some pf => if (match pf with
                            | .stmt s => (walkStmt s).any isTryWithFinalbody
                            | _ => false)
                         then BAD_HABIT else RUNTIME_ERROR
            | none => POTENTIAL_ERROR
          [⟨ln, resourceMsg, true, some category, "ast", none⟩]
        else []
      else []
  | _ => []

/-- The walk loop of `_check_resource_management`, threading the `file_vars` dict:
an `Assign` of a single name to an `open(...)` call records the variable as unclosed,
an expression statement `v.close()` marks it closed, and every walked `open(...)` call
node goes through `emitResourceFinding`. -/
def resourceGo : List Node → List (String × Bool) → List Finding
  | [], _ => []
  | n :: rest, fileVars =>
      match n with
      | .stmt (.assign _ [.name v] (.call _ (.name f) _)) =>
          if f == "open" then resourceGo rest (alistInsert fileVars v false)
          else resourceGo rest fileVars
      | .stmt (.exprStmt _ (.call _ (.attribute (.name v) a) _)) =>
          if a == "close" && (alistGet fileVars v).isSome then
            resourceGo rest (alistInsert fileVars v true)
          else resourceGo rest fileVars
      | _ => emitResourceFinding fileVars n ++ resourceGo rest fileVars

/-- `PythonHabitAnalyzer._check_resource_management`.  Note the source's `elif` chain:
an `Assign` or `Expr` statement node takes the bookkeeping branch and is never itself
tested as a call (the `ast.Call` branch fires when the walk later yields the call
node). -/
def check_resource_management (tree : PyModule) : List Finding :=
  resourceGo (walkModule tree) []

-- ---------------------------------------------------------------------------
-- Check 5: `_check_unreachable_code`
-- ---------------------------------------------------------------------------

/-- `isinstance(stmt, (ast.Return, ast.Break, ast.Continue))`. -/
def isRbcStmt : Stmt → Bool
  | .returnStmt _ => true
  | .breakStmt _ => true
  | .continueStmt _ => true
  | _ => false

/-- The scan loop of `_check_unreachable_code` over a direct statement list: at index
`i`, if a return/break/continue was seen earlier and `i < len(body) - 1`, report the
current statement's line and stop; otherwise update the flag with the current
statement.  Returns the reported `unreachable_line`, if any. -/
def unreachableScan : List Stmt → Nat → Nat → Bool → Option Nat
  | [], _, _, _ => none
  | s :: rest, i, len, flag =>
      if flag && decide (i < len - 1) then some (stmtLineno s)
      else unreachableScan rest (i + 1) len (flag || isRbcStmt s)

/-- The source's `unreachable_stmts` collection.  `node.body.index(stmt)` compares AST
nodes, which have no custom equality, by object identity; the element being enumerated
at position `i` is therefore found at index `i` itself, so the guard
`i > node.body.index(stmt)` reads `i > i` and the collection is always empty. -/
def collectUnreachableStmts (hasRbc : Bool) (body : List Stmt) : List Stmt :=
  ((body.enum).filter (fun p => hasRbc && decide (p.1 > p.1))).map (fun p => p.2)

/-- `isinstance(stmt, (ast.Assign, ast.AugAssign, ast.Call))` on a body element.  A
statement-list element is never an `ast.Call` node — a call used as a statement is
wrapped in `ast.Expr` — so that disjunct never fires. -/
def isAssignAugOrCallStmt : Stmt → Bool
  | .assign .. => true
  | .augAssign .. => true
  | _ => false

/-- The category loop of `_check_unreachable_code`: the first collected statement that
is an assignment/augmented assignment/call gives `potential_error`, a first `Return`
gives `runtime_error`, otherwise the default `bad_habit` stands. -/
def unreachableCategory (stmts : List Stmt) : String :=
  match stmts.find? (fun s =>
      isAssignAugOrCallStmt s || (match s with | .returnStmt _ => true | _ => false)) with
  | some s => if isAssignAugOrCallStmt s then POTENTIAL_ERROR else RUNTIME_ERROR
  | none => BAD_HABIT

/-- The findings `_check_unreachable_code` appends at one walked node
(`FunctionDef` / `For` / `While` direct bodies only). -/
def emitUnreachable (n : Node) : List Finding :=
  let fromBody (body : List Stmt) : List Finding :=
    match unreachableScan body 0 body.length false with
    | some line =>
        [⟨line, unreachableMsg, true,
          some (unreachableCategory (collectUnreachableStmts true body)), "ast", none⟩]
    | none => []
  match n with
  | .stmt (.functionDef _ _ _ _ body) => fromBody body
  | .stmt (.forStmt _ _ _ body _) => fromBody body
  | .stmt (.whileStmt _ _ body _) => fromBody body
  | _ => []

/-- `PythonHabitAnalyzer._check_unreachable_code`. -/
def check_unreachable_code (tree : PyModule) : List Finding :=
  (walkModule tree).foldr (fun n acc => emitUnreachable n ++ acc) []

-- ---------------------------------------------------------------------------
-- Check 6: `_check_shadowing_builtins`
-- ---------------------------------------------------------------------------

def builtin_names : List String :=
  ["list", "dict", "set", "tuple", "int", "float", "str", "bool", "type",
   "object", "file", "open", "input", "print", "range", "enumerate",
   "len", "max", "min", "sum", "filter", "map", "zip"]

/-- One shadowing instance collected by the first pass: the shadowed builtin name, the
node it was collected from (the `Assign` statement or the `FunctionDef`), and whether
it is a parameter instance. -/
structure ShadowInstance where
  builtin : String
  node : Stmt
  isParam : Bool

/-- The first pass of `_check_shadowing_builtins` at one walked node: assignment
targets and function parameters whose name is a builtin. -/
def collectShadowAt (n : Node) : List ShadowInstance :=
  match n with
  | .stmt (.assign ln targets v) =>
      targets.foldr (fun t acc =>
        (match t with
         | .name i => if builtin_names.contains i then [⟨i, .assign ln targets v, false⟩] else []
         | _ => []) ++ acc) []
  | .stmt (.functionDef ln nm args defs body) =>
      args.foldr (fun a acc =>
        (if builtin_names.contains a then [⟨a, .functionDef ln nm args defs body, true⟩] else []) ++ acc) []
  | _ => []

/-- The second pass of `_check_shadowing_builtins` for one instance.  `scope_node` is
the instance's own node in both branches of the source, so the
`tries_to_use_original` walk searches only that node's subtree. -/
def emitShadow (inst : ShadowInstance) : Finding :=
  let tries_to_use_original := (walkStmt inst.node).any (fun sn =>
    match sn with
    | .expr (.call _ (.name i) _) => i == inst.builtin
    | _ => false)
  let category :=
    if tries_to_use_original then RUNTIME_ERROR
    else if ["open", "print", "input", "len", "str", "int", "float"].contains inst.builtin
    then POTENTIAL_ERROR else BAD_HABIT
  if inst.isParam then
    ⟨stmtLineno inst.node, shadowParamMsg inst.builtin, true, some category, "ast", none⟩
  else
    ⟨stmtLineno inst.node, shadowVarMsg inst.builtin, true, some category, "ast", none⟩

/-- `PythonHabitAnalyzer._check_shadowing_builtins`.  The source groups instances into
a dict keyed by builtin name before emitting; grouping only permutes emissions across
distinct names (each instance's finding depends on that instance alone), so the
embedding emits in first-pass collection order. -/
def check_shadowing_builtins (tree : PyModule) : List Finding :=
  ((walkModule tree).foldr (fun n acc => collectShadowAt n ++ acc) []).map emitShadow

-- ---------------------------------------------------------------------------
-- `_run_ast_analysis`
-- ---------------------------------------------------------------------------

def syntaxErrorFinding (ln : Nat) (emsg : String) : Finding :=
  ⟨ln, "Syntax error: " ++ emsg, true, some SYNTAX_ERROR, "ast", none⟩

/-- The outcome of `ast.parse(code)`: a tree, or a `SyntaxError` with its `lineno` and
text.  `ast.parse` is deterministic, so the two calls in `analyze` (context pass and
analysis pass) receive the same outcome. -/
abbrev ParseResult := Except (Nat × String) PyModule

/-- `PythonHabitAnalyzer._run_ast_analysis`: on a parsed tree, run the six checks and
append their findings in order; on a `SyntaxError`, append the one syntax finding.
The source's trailing `except Exception` arm is unreachable in the embedding because
every embedded check is a total function. -/
def run_ast_analysis (parsed : ParseResult) (c : Ctx) : List Finding :=
  match parsed with
  | .ok tree =>
      check_mutable_defaults tree c ++ check_infinite_loops tree ++
      check_exception_handling tree ++ check_resource_management tree ++
      check_unreachable_code tree ++ check_shadowing_builtins tree
  | .error (ln, emsg) => [syntaxErrorFinding ln emsg]

-- ---------------------------------------------------------------------------
-- `_run_pylint_analysis`
-- ---------------------------------------------------------------------------

/-- One record of pylint's `--output-format=json` output, as read by the bridge:
`msg.get('type', '')`, `msg.get('message', '')`, `msg.get('line', 0)`,
`msg.get('symbol', '')`. -/
structure PylintMsg where
  mtype : String
  message : String
  line : Nat
  symbol : String

def definite_error_symbols : List String :=
  ["undefined-variable", "used-before-assignment",
   "no-member", "not-callable", "unexpected-keyword-arg",
   "too-many-function-args", "too-few-function-args",
   "invalid-sequence-index", "invalid-slice-index",
   "attribute-error", "import-error", "no-name-in-module",
   "return-outside-function", "yield-outside-function",
   "continue-outside-loop", "break-outside-loop"]

def potential_error_symbols : List String :=
  ["missing-kwoa", "unsupported-assignment-operation",
   "unsupported-delete-operation", "unsupported-membership-test",
   "unsubscriptable-object", "undefined-loop-variable",
   "return-arg-in-generator", "nonlocal-without-binding"]

/-- `msg.get('type', '').lower()`; pylint type names are ASCII, so ASCII lowering
suffices. -/
def pyLower (s : String) : String := ⟨s.data.map Char.toLower⟩

/-- Python `text.split(sep)` for a one-character separator (the source splits on a
single quote). -/
def pySplitChar (sep : Char) : List Char → List (List Char)
  | [] => [[]]
  | c :: rest =>
      let r := pySplitChar sep rest
      if c == sep then [] :: r
      else
        match r with
        | g :: gs => (c :: g) :: gs
        | [] => [[c]]

/-- The per-message body of the bridge's loop: categorize, then append only messages
whose type is `error` or whose symbol is in one of the two sets.  The inner
`undefined-variable` context test (`message.split("'")` and a lookup in
`self.variables`) sits under `elif symbol in potential_error_symbols`, while
`undefined-variable` is a member of `definite_error_symbols`. -/
def process_pylint_msg (c : Ctx) (msg : PylintMsg) : List Finding :=
  let message_type := pyLower msg.mtype
  let category :=
    if message_type == "error" || definite_error_symbols.contains msg.symbol then
      RUNTIME_ERROR
    else if potential_error_symbols.contains msg.symbol then
      if msg.symbol == "undefined-variable" then
        match pySplitChar '\x27' msg.message.data with
        | _ :: v :: _ =>
            if (alistGet c.vars (String.mk v)).isSome then POTENTIAL_ERROR else RUNTIME_ERROR
        | _ => RUNTIME_ERROR
      else POTENTIAL_ERROR
    else BAD_HABIT
  if message_type == "error" || definite_error_symbols.contains msg.symbol
      || potential_error_symbols.contains msg.symbol then
    [⟨msg.line, msg.message, true, some category, "pylint", none⟩]
  else []

/-- What the bridge's collaborators (temp file, subprocess, json parser) did on one
run, each failure mode carrying the exception text the source interpolates. -/
inductive PylintEvent where
  | tempCreateFail (emsg : String)
  | tempWriteFail (emsg : String)
  | subprocessFail (emsg : String)
  | stdout (msgs : List PylintMsg)
  | stdoutGarbage
  | stdoutEmpty

/-- The one way the embedded analyzer can raise: `_run_pylint_analysis`'s `finally`
clause reads the local `temp_file_path`, which is unbound when
`tempfile.NamedTemporaryFile` itself raised, so the clause raises `UnboundLocalError`. -/
inductive PyFault where
  | unboundLocalTempPath
deriving DecidableEq

def pylintRunErrorFinding (emsg : String) : Finding :=
  ⟨0, "Error running pylint: " ++ emsg, false, some RUNTIME_ERROR, "system", none⟩

def pylintParseFailFinding : Finding :=
  ⟨0, "Failed to parse pylint output", false, some RUNTIME_ERROR, "system", none⟩

/-- `PythonHabitAnalyzer._run_pylint_analysis`.  On `tempCreateFail` the
`except Exception` arm appends its system finding, but the `finally` clause then
evaluates `os.path.exists(temp_file_path)` with `temp_file_path` unbound and the
method raises `UnboundLocalError`.  On every other event `temp_file_path` is bound,
the `finally` clause removes the file, and the method returns normally. -/
def run_pylint_analysis (ev : PylintEvent) (c : Ctx) (feedback : List Finding) :
    Except PyFault (List Finding) :=
  match ev with
  | .tempCreateFail _ => .error .unboundLocalTempPath
  | .tempWriteFail emsg => .ok (feedback ++ [pylintRunErrorFinding emsg])
  | .subprocessFail emsg => .ok (feedback ++ [pylintRunErrorFinding emsg])
  | .stdout msgs =>
      .ok (feedback ++ msgs.foldr (fun m acc => process_pylint_msg c m ++ acc) [])
  | .stdoutGarbage => .ok (feedback ++ [pylintParseFailFinding])
  | .stdoutEmpty => .ok feedback

-- ---------------------------------------------------------------------------
-- `analyze`
-- ---------------------------------------------------------------------------

/-- The collaborator behaviour of one `analyze(code)` run: the input text reaches the
analyzer only through `ast.parse` and through the pylint subprocess, so a run is
determined by the parse outcome and the pylint event. -/
structure PyEnv where
  parsed : ParseResult
  pylint : PylintEvent

/-- `PythonHabitAnalyzer.analyze`: reset state, build the context (skipped on a
`SyntaxError` — the first pass catches only `SyntaxError`, leaving the context empty),
run the AST analysis, then the pylint analysis, and return `self.feedback`. -/
def analyze (env : PyEnv) : Except PyFault (List Finding) :=
  let c := match env.parsed with
    | .ok tree => build_context tree
    | .error _ => emptyCtx
  run_pylint_analysis env.pylint c (run_ast_analysis env.parsed c)

-- ---------------------------------------------------------------------------
-- The web route `/analyze`: normalization and sort
-- ---------------------------------------------------------------------------

def listIsPrefixOf : List Char → List Char → Bool
  | [], _ => true
  | _ :: _, [] => false
  | p :: ps, c :: cs => p == c && listIsPrefixOf ps cs

def listContainsSub (pat : List Char) : List Char → Bool
  | [] => listIsPrefixOf pat []
  | c :: rest => listIsPrefixOf pat (c :: rest) || listContainsSub pat rest

/-- Python `pat in s` — substring containment. -/
def strContains (s pat : String) : Bool := listContainsSub pat.data s.data

/-- The route's category-normalization loop body.  The legacy branch fires only for an
item that has a `certainty` key and no `category`; an item with no `certainty` and no
`category` gets the `runtime_error` default; an item that already has a `category` is
untouched.  (The explanation-attachment loop that precedes this in the route only
adds `explanation`/`fix` keys, which nothing below reads, and is omitted.) -/
def normalize_item (f : Finding) : Finding :=
  match f.category with
  | some _ => f
  | none =>
      match f.certainty with
      | some cert =>
          if cert == "error" then
            if strContains f.message "SyntaxError" then { f with category := some SYNTAX_ERROR }
            else if ["division by zero", "index out of range", "key error"].any
                (fun pat => strContains f.message pat) then
              { f with category := some FATAL_ERROR }
            else { f with category := some RUNTIME_ERROR }
          else if cert == "might_error" then { f with category := some POTENTIAL_ERROR }
          else { f with category := some BAD_HABIT }
      | none => { f with category := some RUNTIME_ERROR }

/-- The route's `category_priority` dict. -/
def category_priority : List (String × Nat) :=
  [(SYNTAX_ERROR, 0), (FATAL_ERROR, 1), (RUNTIME_ERROR, 2), (POTENTIAL_ERROR, 3), (BAD_HABIT, 4)]

/-- The first component of the route's sort key:
`category_priority.get(x['category'], 999)`.  After normalization every item has a
category, so the `none` arm (mirroring the `.get` default for the absent-key case that
would in fact raise `KeyError` at `x['category']`) is unreachable from the route. -/
def rankOf (f : Finding) : Nat :=
  match f.category with
  | some cat => (alistGet category_priority cat).getD 999
  | none => 999

/-- Lexicographic order on the route's sort key `(rank, line)`. -/
def findingLe (a b : Finding) : Prop :=
  rankOf a < rankOf b ∨ (rankOf a = rankOf b ∧ a.line ≤ b.line)

instance : DecidableRel findingLe := fun a b => by
  unfold findingLe; infer_instance

/-- Stable insertion used to model `list.sort(key=...)`. -/
def insertFinding (x : Finding) : List Finding → List Finding
  | [] => [x]
  | y :: ys => if findingLe x y then x :: y :: ys else y :: insertFinding x ys

/-- `feedback.sort(key=lambda x: (category_priority.get(x['category'], 999), x['line']))`:
a stable sort by the key; stable insertion sort computes the same list as the
source's stable sort. -/
def pySortFindings : List Finding → List Finding
  | [] => []
  | x :: xs => insertFinding x (pySortFindings xs)

/-- The finding list the `/analyze` route returns for a given analyzer feedback list:
normalize every item, then sort by `(category rank, line)`. -/
def analyze_route_findings (feedback : List Finding) : List Finding :=
  pySortFindings (feedback.map normalize_item)

-- ---------------------------------------------------------------------------
-- Order lemmas for the route's sort
-- ---------------------------------------------------------------------------

theorem findingLe_total (a b : Finding) : findingLe a b ∨ findingLe b a := by
  unfold findingLe
  rcases Nat.lt_trichotomy (rankOf a) (rankOf b) with h | h | h
  · exact Or.inl (Or.inl h)
  · rcases Nat.le_total a.line b.line with hl | hl
    · exact Or.inl (Or.inr ⟨h, hl⟩)
    · exact Or.inr (Or.inr ⟨h.symm, hl⟩)
  · exact Or.inr (Or.inl h)

theorem findingLe_trans {a b c : Finding} (hab : findingLe a b) (hbc : findingLe b c) :
    findingLe a c := by
  unfold findingLe at hab hbc ⊢
  omega

theorem mem_insertFinding {x z : Finding} :
    ∀ {l : List Finding}, z ∈ insertFinding x l → z = x ∨ z ∈ l := by
  intro l
  induction l with
  | nil => simp [insertFinding]
  | cons y ys ih =>
      unfold insertFinding
      split
      · intro h
        rcases List.mem_cons.mp h with h1 | h1
        · exact Or.inl h1
        · exact Or.inr h1
      · intro h
        rcases List.mem_cons.mp h with h1 | h1
        · exact Or.inr (h1 ▸ List.mem_cons_self y ys)
        · rcases ih h1 with h2 | h2
          · exact Or.inl h2
          · exact Or.inr (List.mem_cons_of_mem y h2)

theorem pairwise_insertFinding {x : Finding} :
    ∀ {l : List Finding}, l.Pairwise findingLe → (insertFinding x l).Pairwise findingLe := by
  intro l
  induction l with
  | nil => intro _; simp [insertFinding]
  | cons y ys ih =>
      intro hp
      rcases List.pairwise_cons.mp hp with ⟨hy, hys⟩
      unfold insertFinding
      split
      · rename_i hxy
        refine List.pairwise_cons.mpr ⟨?_, hp⟩
        intro z hz
        rcases List.mem_cons.mp hz with h1 | h1
        · exact h1 ▸ hxy
        · exact findingLe_trans hxy (hy z h1)
      · rename_i hxy
        have hyx : findingLe y x := (findingLe_total x y).resolve_left hxy
        refine List.pairwise_cons.mpr ⟨?_, ih hys⟩
        intro z hz
        rcases mem_insertFinding hz with h1 | h1
        · exact h1 ▸ hyx
        · exact hy z h1

theorem pairwise_pySortFindings (l : List Finding) :
    (pySortFindings l).Pairwise findingLe := by
  induction l with
  | nil => simp [pySortFindings]
  | cons x xs ih => exact pairwise_insertFinding ih

-- ---------------------------------------------------------------------------
-- Well-formedness of every finding the analyzer appends
-- ---------------------------------------------------------------------------

/-- The five category values of `PythonHabitAnalyzer`, as stored in a finding. -/
def analyzerCategories : List (Option String) :=
  [some SYNTAX_ERROR, some FATAL_ERROR, some RUNTIME_ERROR, some POTENTIAL_ERROR, some BAD_HABIT]

/-- Every finding the analyzer appends carries one of the five categories and one of
the three sources. -/
def WellFormedFinding (f : Finding) : Prop :=
  f.category ∈ analyzerCategories ∧ f.source ∈ ["ast", "pylint", "system"]

theorem mem_foldr_append {α β : Type} (g : α → List β) (l : List α) (x : β) :
    x ∈ l.foldr (fun a acc => g a ++ acc) [] ↔ ∃ a ∈ l, x ∈ g a := by
  induction l with
  | nil => simp
  | cons a as ih => simp [List.mem_append, ih]

theorem wf_emitMutableDefaults (c : Ctx) (n : Node) (f : Finding)
    (hf : f ∈ emitMutableDefaults c n) : WellFormedFinding f := by
  rw [emitMutableDefaults.eq_def] at hf
  split at hf
  · rw [mem_foldr_append] at hf
    obtain ⟨d, _, hf⟩ := hf
    repeat' (first | (dsimp only at hf) | (split at hf))
    all_goals
      first
        | exact (List.not_mem_nil f hf).elim
        | (simp only [List.mem_singleton] at hf; subst hf;
           exact ⟨by dsimp only; (repeat' split) <;> decide, by dsimp only; decide⟩)
  · exact (List.not_mem_nil f hf).elim

theorem wf_emitInfiniteLoop (n : Node) (f : Finding)
    (hf : f ∈ emitInfiniteLoop n) : WellFormedFinding f := by
  rw [emitInfiniteLoop.eq_def] at hf
  repeat' (first | (dsimp only at hf) | (split at hf))
  all_goals
    first
      | exact (List.not_mem_nil f hf).elim
      | (simp only [List.mem_singleton] at hf; subst hf;
         exact ⟨by dsimp only; (repeat' split) <;> decide, by dsimp only; decide⟩)

theorem wf_emitExceptionHandling (n : Node) (f : Finding)
    (hf : f ∈ emitExceptionHandling n) : WellFormedFinding f := by
  rw [emitExceptionHandling.eq_def] at hf
  repeat' (first | (dsimp only at hf) | (split at hf))
  all_goals
    first
      | exact (List.not_mem_nil f hf).elim
      | (simp only [List.mem_singleton] at hf; subst hf;
         exact ⟨by dsimp only; (repeat' split) <;> decide, by dsimp only; decide⟩)

theorem wf_emitResourceFinding (fv : List (String × Bool)) (n : Node) (f : Finding)
    (hf : f ∈ emitResourceFinding fv n) : WellFormedFinding f := by
  rw [emitResourceFinding.eq_def] at hf
  repeat' (first | (dsimp only at hf) | (split at hf))
  all_goals
    first
      | exact (List.not_mem_nil f hf).elim
      | (simp only [List.mem_singleton] at hf; subst hf;
         exact ⟨by dsimp only; (repeat' split) <;> decide, by dsimp only; decide⟩)

theorem wf_resourceGo (nodes : List Node) :
    ∀ (fv : List (String × Bool)) (f : Finding), f ∈ resourceGo nodes fv → WellFormedFinding f := by
  induction nodes with
  | nil => intro fv f hf; simp [resourceGo] at hf
  | cons n rest ih =>
      intro fv f hf
      simp only [resourceGo] at hf
      split at hf
      · split at hf <;> exact ih _ f hf
      · split at hf <;> exact ih _ f hf
      · rcases List.mem_append.mp hf with h1 | h1
        · exact wf_emitResourceFinding _ _ f h1
        · exact ih _ f h1

theorem wf_emitUnreachable (n : Node) (f : Finding)
    (hf : f ∈ emitUnreachable n) : WellFormedFinding f := by
  rw [emitUnreachable.eq_def] at hf
  repeat' (first | (dsimp only at hf) | (split at hf))
  all_goals
    first
      | exact (List.not_mem_nil f hf).elim
      | (simp only [List.mem_singleton] at hf; subst hf;
         refine ⟨?_, by dsimp only; decide⟩; dsimp only;
         unfold unreachableCategory; (repeat' split) <;> decide)

theorem wf_emitShadow (inst : ShadowInstance) : WellFormedFinding (emitShadow inst) := by
  unfold WellFormedFinding emitShadow
  dsimp only
  repeat' split
  all_goals exact ⟨by dsimp only; (repeat' split) <;> decide, by dsimp only; decide⟩

theorem wf_process_pylint_msg (c : Ctx) (msg : PylintMsg) (f : Finding)
    (hf : f ∈ process_pylint_msg c msg) : WellFormedFinding f := by
  rw [process_pylint_msg.eq_def] at hf
  repeat' (first | (dsimp only at hf) | (split at hf))
  all_goals
    first
      | exact (List.not_mem_nil f hf).elim
      | (simp only [List.mem_singleton] at hf; subst hf;
         exact ⟨by dsimp only; (repeat' split) <;> decide, by dsimp only; decide⟩)

theorem wf_run_ast_analysis (parsed : ParseResult) (c : Ctx) (f : Finding)
    (hf : f ∈ run_ast_analysis parsed c) : WellFormedFinding f := by
  rcases parsed with p | tree
  · obtain ⟨ln, emsg⟩ := p
    simp only [run_ast_analysis, List.mem_singleton] at hf
    subst hf
    exact ⟨by simp [syntaxErrorFinding, analyzerCategories], by simp [syntaxErrorFinding]⟩
  · simp only [run_ast_analysis, check_mutable_defaults, check_infinite_loops,
      check_exception_handling, check_resource_management, check_unreachable_code,
      check_shadowing_builtins, List.mem_append] at hf
    rcases hf with ((((h | h) | h) | h) | h) | h
    · rw [mem_foldr_append] at h
      obtain ⟨n, _, h⟩ := h
      exact wf_emitMutableDefaults c n f h
    · rw [mem_foldr_append] at h
      obtain ⟨n, _, h⟩ := h
      exact wf_emitInfiniteLoop n f h
    · rw [mem_foldr_append] at h
      obtain ⟨n, _, h⟩ := h
      exact wf_emitExceptionHandling n f h
    · exact wf_resourceGo _ _ f h
    · rw [mem_foldr_append] at h
      obtain ⟨n, _, h⟩ := h
      exact wf_emitUnreachable n f h
    · rw [List.mem_map] at h
      obtain ⟨inst, _, h⟩ := h
      exact h ▸ wf_emitShadow inst

theorem wf_analyze (env : PyEnv) (fb : List Finding) (h : analyze env = .ok fb) :
    ∀ f ∈ fb, WellFormedFinding f := by
  intro f hf
  obtain ⟨parsed, ev⟩ := env
  rcases ev with emsg | emsg | emsg | msgs | _ | _ <;>
    simp only [analyze, run_pylint_analysis] at h
  · exact absurd h (by simp)
  · obtain rfl := (Except.ok.injEq _ _).mp h
    rcases List.mem_append.mp hf with h1 | h1
    · exact wf_run_ast_analysis _ _ f h1
    · simp only [List.mem_singleton] at h1
      subst h1
      exact ⟨by simp [pylintRunErrorFinding, analyzerCategories], by simp [pylintRunErrorFinding]⟩
  · obtain rfl := (Except.ok.injEq _ _).mp h
    rcases List.mem_append.mp hf with h1 | h1
    · exact wf_run_ast_analysis _ _ f h1
    · simp only [List.mem_singleton] at h1
      subst h1
      exact ⟨by simp [pylintRunErrorFinding, analyzerCategories], by simp [pylintRunErrorFinding]⟩
  · obtain rfl := (Except.ok.injEq _ _).mp h
    rcases List.mem_append.mp hf with h1 | h1
    · exact wf_run_ast_analysis _ _ f h1
    · rw [mem_foldr_append] at h1
      obtain ⟨m, _, h1⟩ := h1
      exact wf_process_pylint_msg _ m f h1
  · obtain rfl := (Except.ok.injEq _ _).mp h
    rcases List.mem_append.mp hf with h1 | h1
    · exact wf_run_ast_analysis _ _ f h1
    · simp only [List.mem_singleton] at h1
      subst h1
      exact ⟨by simp [pylintParseFailFinding, analyzerCategories], by simp [pylintParseFailFinding]⟩
  · obtain rfl := (Except.ok.injEq _ _).mp h
    exact wf_run_ast_analysis _ _ f hf

/-- An item that already has a category is untouched by the route's normalization. -/
theorem normalize_item_of_some (f : Finding) (h : f.category.isSome) :
    normalize_item f = f := by
  unfold normalize_item
  rcases hc : f.category with _ | cat
  · rw [hc] at h; simp at h
  · rfl

-- ---------------------------------------------------------------------------
-- Concrete programs used by the claims
-- ---------------------------------------------------------------------------

/-- `def f(items=[]): pass` followed by `n` module-level calls `f()`. -/
def c3def : Stmt := .functionDef 1 "f" ["items"] [.listLit []] [.passStmt 1]

def c3call : Stmt := .exprStmt 2 (.call 2 (.name "f") [])

def c3mod (n : Nat) : PyModule := c3def :: List.replicate n c3call

def c3facts (k : Nat) : FunctionFacts := ⟨k, false, false, true, []⟩

def c3ctx (k : Nat) : Ctx := ⟨[], [("f", c3facts k)], []⟩

/-- `while True:` with an `if` (and no break/return/raise/exit) in the body. -/
def c4prog : PyModule :=
  [.whileStmt 1 (.constant .pTrue)
    [.ifStmt 2 (.name "x") [.assign 3 [.name "y"] (.constant (.pInt 1))] []] []]

/-- `try: x = 1` / `except: pass`. -/
def tryPass : PyModule :=
  [.tryStmt 1 [.assign 1 [.name "x"] (.constant (.pInt 1))] [.mk 2 none [.passStmt 3]] [] []]

/-- `try: x = 1` / `except: raise`. -/
def tryRaise : PyModule :=
  [.tryStmt 1 [.assign 1 [.name "x"] (.constant (.pInt 1))] [.mk 2 none [.raiseStmt 3]] [] []]

/-- `list = [1, 2, 3]` followed by a call `list()`. -/
def c6with : PyModule :=
  [.assign 1 [.name "list"] (.listLit [.constant (.pInt 1), .constant (.pInt 2), .constant (.pInt 3)]),
   .exprStmt 2 (.call 2 (.name "list") [])]

/-- `list = [1, 2, 3]` alone. -/
def c6without : PyModule :=
  [.assign 1 [.name "list"] (.listLit [.constant (.pInt 1), .constant (.pInt 2), .constant (.pInt 3)])]

/-- `list = list(x)` — a call to the shadowed builtin inside the shadowing assignment
itself, the only shape the source's scope walk can see. -/
def c6inside : PyModule :=
  [.assign 1 [.name "list"] (.call 1 (.name "list") [.name "x"])]

/-- `with open("f.txt") as f: pass`. -/
def c7prog : PyModule :=
  [.withStmt 1 [.call 1 (.name "open") [.constant (.pStr "f.txt")]] [.passStmt 2]]

/-- `def g(): return; x = 1; y = 2` — two statements after the `return`. -/
def c8two : PyModule :=
  [.functionDef 1 "g" [] []
    [.returnStmt 2, .assign 3 [.name "x"] (.constant (.pInt 1)),
     .assign 4 [.name "y"] (.constant (.pInt 2))]]

/-- The context of a program containing `x = 2`: the name `x` is a known variable. -/
def ctx9 : Ctx := build_context [.assign 1 [.name "x"] (.constant (.pInt 2))]

/-- A pylint `undefined-variable` record whose quoted name is `x`. -/
def uvMsg : PylintMsg := ⟨"error", "Undefined variable \x27x\x27", 5, "undefined-variable"⟩

/-- Analyzer feedback used to witness the route ordering: a `bad_habit` at line 3
before a `fatal_error` at line 1. -/
def demoFb : List Finding :=
  [⟨3, "m1", true, some BAD_HABIT, "ast", none⟩, ⟨1, "m2", true, some FATAL_ERROR, "ast", none⟩]

-- ---------------------------------------------------------------------------
-- Claim C2 (code_bug)
-- ---------------------------------------------------------------------------

/-- Claim C2: the claim says `analyze` never propagates an exception and that every
linter-failure path ends in an appended finding.  The code violates this on the path
where the temporary-file creation itself raises: the `except Exception` arm appends
the system finding, but the `finally` clause reads the unbound local `temp_file_path`
and the method — and hence `analyze` — raises `UnboundLocalError`.  Every other
bridge failure mode does end in an appended system finding. -/
theorem c2_analyze_raises_on_temp_file_failure :
    analyze ⟨.ok [], .tempCreateFail "No space left on device"⟩ = .error .unboundLocalTempPath ∧
    run_pylint_analysis (.subprocessFail "boom") emptyCtx [] = .ok [pylintRunErrorFinding "boom"] ∧
    run_pylint_analysis .stdoutGarbage emptyCtx [] = .ok [pylintParseFailFinding] :=
  ⟨rfl, rfl, rfl⟩

-- ---------------------------------------------------------------------------
-- Claim C4 (corrected)
-- ---------------------------------------------------------------------------

/-- Claim C4 counterexample: a `while True:` whose body contains an `if` but no break,
return, raise or exit call.  The claim demands a `fatal_error` finding; the check
emits the finding with category `potential_error` instead (the nested-conditional
downgrade), so no `fatal_error` finding exists for this loop. -/
theorem c4_counterexample :
    check_infinite_loops c4prog = [⟨1, infMsg, true, some POTENTIAL_ERROR, "ast", none⟩] ∧
    POTENTIAL_ERROR ≠ FATAL_ERROR :=
  ⟨by decide, by decide⟩

/-- Claim C4 as amended: (1) `check_infinite_loops` is the concatenation of the
per-node emissions; for a `while True:` node, (2) if the subtree has no
break/return/raise/exit call and also no `if` statement, exactly one `fatal_error`
finding is emitted at the loop's line; (3) if it has an `if` but still none of the
four exits, the one finding is `potential_error`; (4) if a `break` occurs anywhere in
the subtree, no finding is emitted for that loop. -/
theorem c4_amended :
    (∀ tree : PyModule, check_infinite_loops tree =
        (walkModule tree).foldr (fun n acc => emitInfiniteLoop n ++ acc) []) ∧
    (∀ (ln : Nat) (body orelse : List Stmt),
      ((walkStmt (Stmt.whileStmt ln (.constant .pTrue) body orelse)).any (fun ch =>
          isBreakNode ch || isReturnNode ch || isRaiseNode ch || isExitCallNode ch)) = false →
      ((walkStmt (Stmt.whileStmt ln (.constant .pTrue) body orelse)).any isIfNode) = false →
      emitInfiniteLoop (.stmt (.whileStmt ln (.constant .pTrue) body orelse)) =
        [⟨ln, infMsg, true, some FATAL_ERROR, "ast", none⟩]) ∧
    (∀ (ln : Nat) (body orelse : List Stmt),
      ((walkStmt (Stmt.whileStmt ln (.constant .pTrue) body orelse)).any (fun ch =>
          isBreakNode ch || isReturnNode ch || isRaiseNode ch || isExitCallNode ch)) = false →
      ((walkStmt (Stmt.whileStmt ln (.constant .pTrue) body orelse)).any isIfNode) = true →
      emitInfiniteLoop (.stmt (.whileStmt ln (.constant .pTrue) body orelse)) =
        [⟨ln, infMsg, true, some POTENTIAL_ERROR, "ast", none⟩]) ∧
    (∀ (ln : Nat) (body orelse : List Stmt),
      ((walkStmt (Stmt.whileStmt ln (.constant .pTrue) body orelse)).any isBreakNode) = true →
      emitInfiniteLoop (.stmt (.whileStmt ln (.constant .pTrue) body orelse)) = []) := by
  refine ⟨fun tree => rfl, ?_, ?_, ?_⟩
  · intro ln body orelse hex hif
    simp only [emitInfiniteLoop, hex, hif]
    rfl
  · intro ln body orelse hex hif
    simp only [emitInfiniteLoop, hex, hif]
    rfl
  · intro ln body orelse hbrk
    obtain ⟨x, hx, hxb⟩ := List.any_eq_true.mp hbrk
    have hex : ((walkStmt (Stmt.whileStmt ln (.constant .pTrue) body orelse)).any (fun ch =>
        isBreakNode ch || isReturnNode ch || isRaiseNode ch || isExitCallNode ch)) = true :=
      List.any_eq_true.mpr ⟨x, hx, by simp [hxb]⟩
    simp only [emitInfiniteLoop, hex]
    rfl

/-- Claim C4 witness: the amended statement at three concrete loops. -/
theorem c4_amended_witness :
    emitInfiniteLoop (.stmt (.whileStmt 1 (.constant .pTrue) [.passStmt 2] [])) =
      [⟨1, infMsg, true, some FATAL_ERROR, "ast", none⟩] ∧
    emitInfiniteLoop (.stmt (.whileStmt 1 (.constant .pTrue)
        [.ifStmt 2 (.name "x") [.passStmt 3] []] [])) =
      [⟨1, infMsg, true, some POTENTIAL_ERROR, "ast", none⟩] ∧
    emitInfiniteLoop (.stmt (.whileStmt 1 (.constant .pTrue) [.breakStmt 2] [])) = [] :=
  ⟨c4_amended.2.1 1 [.passStmt 2] [] (by decide) (by decide),
   c4_amended.2.2.1 1 [.ifStmt 2 (.name "x") [.passStmt 3] []] [] (by decide) (by decide),
   c4_amended.2.2.2 1 [.breakStmt 2] [] (by decide)⟩

-- ---------------------------------------------------------------------------
-- Claim C5 (corrected)
-- ---------------------------------------------------------------------------

/-- Claim C5 counterexample: for the bare handler whose body is `raise`, the claim
demands `potential_error`, but `has_reraise` sends the check down the `bad_habit`
branch. -/
theorem c5_counterexample :
    check_exception_handling tryRaise =
      [⟨2, exceptGenericMsg, true, some BAD_HABIT, "ast", none⟩] ∧
    BAD_HABIT ≠ POTENTIAL_ERROR :=
  ⟨by decide, by decide⟩

/-- Claim C5 as amended: `except: pass` yields one `runtime_error` finding, and
`except: raise` yields one `bad_habit` finding (a re-raise is treated as intentional
handling, like logging or printing). -/
theorem c5_amended :
    check_exception_handling tryPass =
      [⟨2, exceptPassMsg, true, some RUNTIME_ERROR, "ast", none⟩] ∧
    check_exception_handling tryRaise =
      [⟨2, exceptGenericMsg, true, some BAD_HABIT, "ast", none⟩] :=
  ⟨by decide, by decide⟩

-- ---------------------------------------------------------------------------
-- Claim C6 (corrected)
-- ---------------------------------------------------------------------------

/-- Claim C6 counterexample: `list = [1,2,3]` followed by a call `list()`.  The claim
demands `runtime_error`, but the check's `tries_to_use_original` walk scans only the
assignment node's own subtree, never sees the later call, and leaves the category at
`bad_habit`. -/
theorem c6_counterexample :
    check_shadowing_builtins c6with =
      [⟨1, shadowVarMsg "list", true, some BAD_HABIT, "ast", none⟩] ∧
    BAD_HABIT ≠ RUNTIME_ERROR :=
  ⟨by decide, by decide⟩

/-- Claim C6 as amended: the shadowing finding for `list = [1,2,3]` has category
`bad_habit` whether or not a later `list()` call exists; the `runtime_error`
escalation fires only when the call to the shadowed builtin occurs inside the
shadowing assignment's own subtree, as in `list = list(x)`. -/
theorem c6_amended :
    check_shadowing_builtins c6with =
      [⟨1, shadowVarMsg "list", true, some BAD_HABIT, "ast", none⟩] ∧
    check_shadowing_builtins c6without =
      [⟨1, shadowVarMsg "list", true, some BAD_HABIT, "ast", none⟩] ∧
    check_shadowing_builtins c6inside =
      [⟨1, shadowVarMsg "list", true, some RUNTIME_ERROR, "ast", none⟩] :=
  ⟨by decide, by decide, by decide⟩

-- ---------------------------------------------------------------------------
-- Claim C7 (code_bug)
-- ---------------------------------------------------------------------------

/-- Claim C7: the claim says an `open(...)` call inside a `with` statement produces no
resource finding.  Because no `parent` attribute is ever attached to any node, the
check's `is_in_with` parent-chain walk always fails, and the `with`-wrapped call is
flagged anyway, with category `potential_error`. -/
theorem c7_with_open_still_flagged :
    check_resource_management c7prog =
      [⟨1, resourceMsg, true, some POTENTIAL_ERROR, "ast", none⟩] := by
  decide

-- ---------------------------------------------------------------------------
-- Claim C8 (corrected)
-- ---------------------------------------------------------------------------

/-- Claim C8 counterexample: `def g(): return; x = 1; y = 2`.  The unreachable
statements include assignments, so the claim demands `potential_error`; the check
emits `bad_habit` (its `unreachable_stmts` collection is always empty, because
`i > node.body.index(stmt)` compares an index with itself). -/
theorem c8_counterexample :
    check_unreachable_code c8two =
      [⟨3, unreachableMsg, true, some BAD_HABIT, "ast", none⟩] ∧
    BAD_HABIT ≠ POTENTIAL_ERROR :=
  ⟨by decide, by decide⟩

/-- Claim C8 as amended: a single finding is emitted only when at least two statements
follow the first return/break/continue in the direct body (one trailing unreachable
statement is never flagged, because the scan requires `i < len(body) - 1`); the
finding carries the first unreachable statement's line and always category
`bad_habit` — the `potential_error`/`runtime_error` escalations are unreachable. -/
theorem c8_amended (la lb lc ld : Nat) :
    check_unreachable_code
        [.functionDef la "g" [] []
          [.returnStmt lb, .assign lc [.name "x"] (.constant (.pInt 1)),
           .assign ld [.name "y"] (.constant (.pInt 2))]] =
      [⟨lc, unreachableMsg, true, some BAD_HABIT, "ast", none⟩] ∧
    check_unreachable_code
        [.functionDef la "g" [] []
          [.returnStmt lb, .assign lc [.name "x"] (.constant (.pInt 1))]] = [] :=
  ⟨rfl, rfl⟩

-- ---------------------------------------------------------------------------
-- Claim C9 (code_bug)
-- ---------------------------------------------------------------------------

/-- Claim C9: the claim says an `undefined-variable` message whose quoted name is a
known variable maps to `potential_error`.  But `undefined-variable` is a member of
`definite_error_symbols`, so the first branch always assigns `runtime_error`; the
known-variable special case sits in the dead `elif symbol in potential_error_symbols`
branch.  Here `x` is in the context's variables and the category is still
`runtime_error`. -/
theorem c9_undefined_variable_always_runtime_error :
    (alistGet ctx9.vars "x").isSome = true ∧
    process_pylint_msg ctx9 uvMsg =
      [⟨5, "Undefined variable \x27x\x27", true, some RUNTIME_ERROR, "pylint", none⟩] ∧
    RUNTIME_ERROR ≠ POTENTIAL_ERROR :=
  ⟨by decide, by decide, by decide⟩

-- ---------------------------------------------------------------------------
-- Claim C1 (confirmed)
-- ---------------------------------------------------------------------------

/-- Claim C1: for every feedback list (in particular every list the analyzer returns
for any input string), the sequence the `/analyze` route returns is sorted
non-decreasingly by the key (category rank, line): for positions `i < j`, either the
rank of the earlier finding's category is strictly smaller, or the ranks are equal
and the lines are non-decreasing.  `rankOf` realizes the route's
`category_priority` order `syntax_error < fatal_error < runtime_error <
potential_error < bad_habit`. -/
theorem c1_route_output_sorted (fb : List Finding) (i j : Nat) (hij : i < j)
    (hj : j < (analyze_route_findings fb).length) :
    rankOf ((analyze_route_findings fb).get ⟨i, Nat.lt_trans hij hj⟩) <
        rankOf ((analyze_route_findings fb).get ⟨j, hj⟩) ∨
      (rankOf ((analyze_route_findings fb).get ⟨i, Nat.lt_trans hij hj⟩) =
          rankOf ((analyze_route_findings fb).get ⟨j, hj⟩) ∧
        ((analyze_route_findings fb).get ⟨i, Nat.lt_trans hij hj⟩).line ≤
          ((analyze_route_findings fb).get ⟨j, hj⟩).line) := by
  have hp := pairwise_pySortFindings (fb.map normalize_item)
  exact List.pairwise_iff_get.mp hp ⟨i, Nat.lt_trans hij hj⟩ ⟨j, hj⟩ hij

/-- Claim C1 witness: the sortedness property at positions 0 and 1 of the route's
output for `demoFb`. -/
theorem c1_route_output_sorted_witness :
    rankOf ((analyze_route_findings demoFb).get ⟨0, by decide⟩) <
        rankOf ((analyze_route_findings demoFb).get ⟨1, by decide⟩) ∨
      (rankOf ((analyze_route_findings demoFb).get ⟨0, by decide⟩) =
          rankOf ((analyze_route_findings demoFb).get ⟨1, by decide⟩) ∧
        ((analyze_route_findings demoFb).get ⟨0, by decide⟩).line ≤
          ((analyze_route_findings demoFb).get ⟨1, by decide⟩).line) :=
  c1_route_output_sorted demoFb 0 1 (by decide) (by decide)

-- ---------------------------------------------------------------------------
-- Claim C3 (corrected)
-- ---------------------------------------------------------------------------

theorem c3_step (k : Nat) :
    List.foldl contextStep (c3ctx k) (walkStmt c3call) = c3ctx (k + 1) := rfl

theorem c3_ctx_rep (n : Nat) :
    ∀ k, List.foldl contextStep (c3ctx k) (walkStmtList (List.replicate n c3call)) =
      c3ctx (k + n) := by
  induction n with
  | zero => intro k; rfl
  | succ m ih =>
      intro k
      rw [List.replicate_succ]
      show List.foldl contextStep (c3ctx k)
        (walkStmt c3call ++ walkStmtList (List.replicate m c3call)) = _
      rw [List.foldl_append, c3_step k, ih (k + 1)]
      congr 1
      omega

/-- The context built over `c3mod n`: `f` registered with `n` counted calls. -/
theorem c3_build (n : Nat) : build_context (c3mod n) = c3ctx n := by
  show List.foldl contextStep emptyCtx (walkStmtList (c3def :: List.replicate n c3call)) = _
  show List.foldl contextStep emptyCtx
    (walkStmt c3def ++ walkStmtList (List.replicate n c3call)) = _
  rw [List.foldl_append]
  rw [show List.foldl contextStep emptyCtx (walkStmt c3def) = c3ctx 0 from rfl]
  rw [c3_ctx_rep n 0]
  congr 1
  omega

theorem c3_rep_emit (m : Nat) (c : Ctx) :
    List.foldr (fun nd acc => emitMutableDefaults c nd ++ acc) []
      (walkStmtList (List.replicate m c3call)) = [] := by
  induction m with
  | zero => rfl
  | succ k ih =>
      rw [List.replicate_succ]
      show List.foldr _ [] (walkStmt c3call ++ walkStmtList (List.replicate k c3call)) = []
      rw [List.foldr_append, ih]
      rfl

/-- Claim C3 as amended: for `def f(items=[]): pass` followed by `n` module-level
calls, the check emits exactly one finding, whose category is `potential_error` when
`f` is called more than once and `bad_habit` otherwise — in particular `bad_habit`,
not `runtime_error`, for exactly one call site (the `runtime_error` default survives
only when the function is absent from the context, which cannot happen for a parsed
tree). -/
theorem c3_amended (n : Nat) :
    check_mutable_defaults (c3mod n) (build_context (c3mod n)) =
      [⟨1, mutMsg "f", true, some (if 1 < n then POTENTIAL_ERROR else BAD_HABIT),
        "ast", none⟩] := by
  rw [c3_build]
  show List.foldr (fun nd acc => emitMutableDefaults (c3ctx n) nd ++ acc) []
    (walkStmt c3def ++ walkStmtList (List.replicate n c3call)) = _
  rw [List.foldr_append, c3_rep_emit n (c3ctx n)]
  show emitMutableDefaults (c3ctx n) (.stmt c3def) ++
    (emitMutableDefaults (c3ctx n) (.expr (.listLit [])) ++
      (emitMutableDefaults (c3ctx n) (.stmt (.passStmt 1)) ++ [])) = _
  rw [show emitMutableDefaults (c3ctx n) (.expr (.listLit [])) = [] from rfl]
  rw [show emitMutableDefaults (c3ctx n) (.stmt (.passStmt 1)) = [] from rfl]
  simp only [List.append_nil]
  have hre : reassignsDefault (Stmt.functionDef 1 "f" ["items"] [Expr.listLit []]
      [Stmt.passStmt 1]) ["items"] [Expr.listLit []] = false := rfl
  by_cases h : 1 < n
  · have hd : decide ((c3facts n).calls > 1) = true := decide_eq_true h
    simp only [emitMutableDefaults, c3def, c3ctx]
    simp [alistGet, c3facts, isMutableLit, hd, hre, h]
  · have hd : decide ((c3facts n).calls > 1) = false := decide_eq_false h
    simp only [emitMutableDefaults, c3def, c3ctx]
    simp [alistGet, c3facts, isMutableLit, hd, hre, h]

/-- Claim C3 counterexample: with exactly one call site the emitted finding's category
is `bad_habit`, not the `runtime_error` the claim demands. -/
theorem c3_counterexample :
    check_mutable_defaults (c3mod 1) (build_context (c3mod 1)) =
      [⟨1, mutMsg "f", true, some BAD_HABIT, "ast", none⟩] ∧
    BAD_HABIT ≠ RUNTIME_ERROR :=
  ⟨by decide, by decide⟩

-- ---------------------------------------------------------------------------
-- Claim C10 (confirmed)
-- ---------------------------------------------------------------------------

/-- Claim C10: whenever `analyze` returns a feedback list (any parse outcome, any
pylint event), every finding in it already carries a `category` that is one of the
five categories and a `source` in `ast`/`pylint`/`system`; consequently the route's
normalization (whose fallback assigns a default category to items lacking one) leaves
every such finding unchanged. -/
theorem c10_analyzer_findings_well_formed (env : PyEnv) (fb : List Finding)
    (h : analyze env = .ok fb) :
    ∀ f ∈ fb, f.category ∈ analyzerCategories ∧ f.source ∈ ["ast", "pylint", "system"] ∧
      normalize_item f = f := by
  intro f hf
  obtain ⟨hcat, hsrc⟩ := wf_analyze env fb h f hf
  refine ⟨hcat, hsrc, normalize_item_of_some f ?_⟩
  simp only [analyzerCategories, List.mem_cons, List.not_mem_nil, or_false] at hcat
  rcases hcat with h1 | h1 | h1 | h1 | h1 <;> simp [h1]

/-- Claim C10 witness: the invariant at the one finding `analyze` returns for a
syntax-error parse with empty pylint output. -/
theorem c10_witness :
    (syntaxErrorFinding 3 "invalid syntax").category ∈ analyzerCategories ∧
    (syntaxErrorFinding 3 "invalid syntax").source ∈ ["ast", "pylint", "system"] ∧
    normalize_item (syntaxErrorFinding 3 "invalid syntax") = syntaxErrorFinding 3 "invalid syntax" :=
  c10_analyzer_findings_well_formed ⟨.error (3, "invalid syntax"), .stdoutEmpty⟩
    [syntaxErrorFinding 3 "invalid syntax"] rfl (syntaxErrorFinding 3 "invalid syntax")
    (List.mem_singleton.mpr rfl)
